import Mathlib

/-!
Verification development for the defense-submission moderation server
(src/server.js of A-Singh15/defencsrev): a shallow embedding of the data
model and of the four HTTP handlers, followed by one theorem per claim
about the intake and moderation workflow.
-/

namespace Server

/-- JS String.prototype.endsWith on the character sequence of a string:
an exact, case-sensitive suffix test, with no trimming or folding. -/
def jsEndsWith (s suff : List Char) : Bool :=
  suff.isSuffixOf s

/-- The institutional domain literal of server.js line 87. -/
def sfsuDomain : String := "@sfsu.edu"

/-- Submission Classifier, server.js line 87:
the status is approved when the email ends with the institutional domain,
pending otherwise. -/
def classify (email : String) : String :=
  if jsEndsWith email.toList sfsuDomain.toList then "approved" else "pending"

/-- One uploaded file part as delivered by multer; the binary content is
elided because only the original file name participates in the staged path
and in the claims. -/
structure FilePart where
  originalname : String
deriving Repr, DecidableEq

/-- The multipart form of POST /api/submissions; a field holding none is
absent from the request (JS undefined). -/
structure SubmissionInput where
  fullName : Option String
  email : Option String
  projectTitle : Option String
  projectDescription : Option String
  videoLink : Option String
  presentationFile : Option FilePart
  paperFile : Option FilePart
  logoFile : Option FilePart
deriving Repr, DecidableEq

/-- A persisted row of the submissions table (section 6 persisted shape). -/
structure StoredSubmission where
  id : Nat
  full_name : String
  email : String
  project_title : String
  project_description : String
  video_link : Option String
  presentation_url : String
  paper_url : Option String
  logo_url : Option String
  status : String
  created_at : Nat
deriving Repr, DecidableEq

/-- The external submissions table: its rows plus the next identifier the
store will assign (identifiers grow in creation order, as does created_at). -/
structure Store where
  rows : List StoredSubmission
  nextId : Nat
deriving Repr, DecidableEq

/-- Ambient inputs of one intake request: the clock used for staged file
names and row timestamps, the public base URL for approval links, and
failure switches for the two external collaborators (the database insert
and the mail transport). -/
structure World where
  now : Nat
  baseUrl : String
  insertError : Bool
  sendMailError : Bool
deriving Repr, DecidableEq

/-- JS truthiness of a text form field: an absent field (undefined) and the
empty string are falsy, every other string is truthy. -/
def truthyStr : Option String → Bool
  | none => false
  | some s => !(s == "")

/-- Validation of server.js line 54: fullName, email, projectTitle,
projectDescription and the presentationFile part must all be truthy,
otherwise the handler answers 400 before any side effect. -/
def requiredFields (req : SubmissionInput) :
    Option (String × String × String × String × FilePart) :=
  match req.fullName, req.email, req.projectTitle, req.projectDescription,
      req.presentationFile with
  | some fn, some em, some pt, some pd, some pf =>
    if fn == "" || em == "" || pt == "" || pd == "" then none
    else some (fn, em, pt, pd, pf)
  | _, _, _, _, _ => none

/-- Staged file name, server.js lines 67, 73 and 80: the current timestamp,
a dash, then the original client file name. The uploads directory part is
elided since only this basename reappears in the stored URL. -/
def stagedPath (now : Nat) (originalname : String) : String :=
  toString now ++ "-" ++ originalname

/-- JS null coalescing of server.js line 98 (videoLink or null): an empty or
absent value is stored as null. -/
def jsOrNull : Option String → Option String
  | none => none
  | some s => if s == "" then none else some s

/-- The nodemailer message composed for a pending submission,
server.js lines 120 to 137; toAddr embeds the JS field named like the
English preposition, which this parser reserves. -/
structure MailOptions where
  sender : String
  toAddr : String
  subject : String
  html : String
deriving Repr, DecidableEq

/-- Opening of the approval mail body, server.js lines 124 to 131, up to the
href target of the approval action. -/
def mailHtmlHead (fullName email projectTitle projectDescription : String) : String :=
  "<h2>New Defense Presentation Submission</h2>"
    ++ "<p><strong>Student:</strong> " ++ fullName ++ "</p>"
    ++ "<p><strong>Email:</strong> " ++ email ++ "</p>"
    ++ "<p><strong>Project:</strong> " ++ projectTitle ++ "</p>"
    ++ "<p><strong>Description:</strong> " ++ projectDescription ++ "</p>"
    ++ "<p><a href=\""

/-- Middle of the approval mail body, between the href target and the
copyable plain link, server.js lines 131 to 135. -/
def mailHtmlMid : String :=
  "\" style=\"background-color: #231161; color: white; padding: 10px 15px;"
    ++ " text-decoration: none; border-radius: 4px; display: inline-block;"
    ++ " margin-top: 10px;\">Approve Submission</a></p><p>Or copy this link: "

/-- Closing of the approval mail body. -/
def mailHtmlTail : String := "</p>"

/-- The full approval mail body: the approval link appears twice, as the
href target and as the copyable plain link. -/
def mailHtml (fullName email projectTitle projectDescription approvalLink : String) :
    String :=
  mailHtmlHead fullName email projectTitle projectDescription
    ++ approvalLink ++ mailHtmlMid ++ approvalLink ++ mailHtmlTail

/-- Approval link for a new pending record, server.js line 117: the public
base URL, the approve path, and the identifier the store just assigned. -/
def approvalLinkFor (baseUrl : String) (id : Nat) : String :=
  baseUrl ++ "/approve?studentId=" ++ toString id

/-- The composed moderation-request mail for a pending submission; the
configured moderator mailbox is both sender default and recipient. -/
def submissionMail (fullName email projectTitle projectDescription approvalLink : String) :
    MailOptions :=
  { sender := "necrlresearch@gmail.com",
    toAddr := "necrlresearch@gmail.com",
    subject := "Approval Request: " ++ projectTitle,
    html := mailHtml fullName email projectTitle projectDescription approvalLink }

/-- The JSON body and status code the intake handler returns. -/
structure SubmitResponse where
  httpStatus : Nat
  success : Bool
  message : String
deriving Repr, DecidableEq

/-- The 400 response of server.js line 55. -/
def missingFieldsResponse : SubmitResponse :=
  { httpStatus := 400, success := false, message := "Missing required fields" }

/-- The 500 response of server.js lines 108 and 153. -/
def submitFailureResponse : SubmitResponse :=
  { httpStatus := 500, success := false, message := "Failed to submit presentation" }

/-- Success message for an institutional email, server.js line 148. -/
def autoApprovedMessage : String := "Your submission has been automatically approved!"

/-- Success message for a pending submission, server.js line 149. -/
def pendingReviewMessage : String :=
  "Your submission is pending approval. You\x27ll receive an email once it\x27s approved."

/-- Everything observable about one intake request: the HTTP response, the
store afterwards, the staged file names written, and the sendMail
invocations that were performed (invoked whether or not the send then
succeeded). -/
structure SubmitOutcome where
  response : SubmitResponse
  store : Store
  filesWritten : List String
  dispatchCalls : List MailOptions
deriving Repr, DecidableEq

/-- The row inserted by server.js lines 91 to 104, with the identifier and
creation timestamp the store assigns. -/
def newRecord (w : World) (st : Store) (fn em pt pd : String) (videoLink : Option String)
    (pf : FilePart) (paper logo : Option FilePart) : StoredSubmission :=
  { id := st.nextId,
    full_name := fn,
    email := em,
    project_title := pt,
    project_description := pd,
    video_link := jsOrNull videoLink,
    presentation_url := "/uploads/" ++ stagedPath w.now pf.originalname,
    paper_url := paper.map (fun f => "/uploads/" ++ stagedPath w.now f.originalname),
    logo_url := logo.map (fun f => "/uploads/" ++ stagedPath w.now f.originalname),
    status := classify em,
    created_at := w.now }

/-- POST /api/submissions, server.js lines 41 to 156. Control flow of the
source: validate, stage the files, classify by email domain, insert, then
for a non-institutional email compose and send the approval mail. An insert
error answers 500 explicitly with nothing persisted; a sendMail rejection
is thrown into the catch-all, which also answers 500, with no rollback of
the already-performed insert. -/
def postSubmissions (w : World) (st : Store) (req : SubmissionInput) : SubmitOutcome :=
  match requiredFields req with
  | none =>
    { response := missingFieldsResponse, store := st,
      filesWritten := [], dispatchCalls := [] }
  | some (fn, em, pt, pd, pf) =>
    let files := stagedPath w.now pf.originalname ::
      ((req.paperFile.map (fun f => stagedPath w.now f.originalname)).toList ++
       (req.logoFile.map (fun f => stagedPath w.now f.originalname)).toList)
    if w.insertError then
      { response := submitFailureResponse, store := st,
        filesWritten := files, dispatchCalls := [] }
    else
      let row := newRecord w st fn em pt pd req.videoLink pf req.paperFile req.logoFile
      let st1 : Store := { rows := st.rows ++ [row], nextId := st.nextId + 1 }
      if jsEndsWith em.toList sfsuDomain.toList then
        { response := { httpStatus := 200, success := true, message := autoApprovedMessage },
          store := st1, filesWritten := files, dispatchCalls := [] }
      else
        let mail := submissionMail fn em pt pd (approvalLinkFor w.baseUrl row.id)
        if w.sendMailError then
          { response := submitFailureResponse, store := st1,
            filesWritten := files, dispatchCalls := [mail] }
        else
          { response := { httpStatus := 200, success := true, message := pendingReviewMessage },
            store := st1, filesWritten := files, dispatchCalls := [mail] }

/-- Result of GET /api/submissions: 400, 500, or 200 with the row array. -/
inductive QueryResponse where
  | badRequest
  | failure
  | ok (rows : List StoredSubmission)
deriving Repr, DecidableEq

/-- The supabase query of server.js lines 167 to 171: the rows whose status
equals the given value, ordered by created_at descending (newest first). -/
def listByStatus (st : Store) (status : String) : List StoredSubmission :=
  (st.rows.filter (fun r => r.status == status)).mergeSort
    (fun a b => Nat.ble b.created_at a.created_at)

/-- GET /api/submissions, server.js lines 159 to 183: 400 when the status
query parameter is absent or empty (JS falsy), 500 on a repository error,
otherwise 200 with the matching rows newest first. -/
def getSubmissions (listError : Bool) (st : Store) (statusParam : Option String) :
    QueryResponse :=
  match statusParam with
  | none => QueryResponse.badRequest
  | some s =>
    if s == "" then QueryResponse.badRequest
    else if listError then QueryResponse.failure
    else QueryResponse.ok (listByStatus st s)

/-- Result of POST /api/approve: 400, 500, or 200 success. -/
inductive ApproveResponse where
  | badRequest
  | failure
  | ok
deriving Repr, DecidableEq

/-- One row after the supabase update of server.js line 215: a row whose id
matches the requested identifier gets status approved, every other row is
untouched. An update filter matching no row is not a store error. -/
def setApprovedRow (sid : Nat) (r : StoredSubmission) : StoredSubmission :=
  if r.id = sid then { r with status := "approved" } else r

/-- POST /api/approve, server.js lines 207 to 227: 400 when studentId is
absent, 500 when the repository update fails (store untouched), otherwise
200 success with every row of the requested id set to approved. -/
def approveSubmission (repoError : Bool) (st : Store) (sid : Option Nat) :
    ApproveResponse × Store :=
  match sid with
  | none => (ApproveResponse.badRequest, st)
  | some n =>
    if repoError then (ApproveResponse.failure, st)
    else (ApproveResponse.ok, { st with rows := st.rows.map (setApprovedRow n) })

/-- One externally visible operation on the store: an intake request or an
approval request, each with its ambient inputs. -/
inductive Op where
  | submit (w : World) (req : SubmissionInput)
  | approve (repoError : Bool) (sid : Option Nat)
deriving Repr, DecidableEq

/-- The store after one operation (responses and side channels dropped). -/
def stepStore (st : Store) (op : Op) : Store :=
  match op with
  | Op.submit w req => (postSubmissions w st req).store
  | Op.approve repoError sid => (approveSubmission repoError st sid).2

/-- The store after a sequence of operations. -/
def runOps (st : Store) : List Op → Store
  | [] => st
  | op :: ops => runOps (stepStore st op) ops

/-! Helper lemmas and demonstration inputs shared by several claims. -/

/-- The executable suffix test agrees with the mathematical suffix relation. -/
theorem jsEndsWith_iff (e : String) (d : String) :
    jsEndsWith e.toList d.toList = true ↔ ∃ p : List Char, p ++ d.toList = e.toList := by
  rw [jsEndsWith, List.isSuffixOf_iff_suffix]
  exact Iff.rfl

/-- The classifier yields one of exactly two statuses. -/
theorem classify_cases (e : String) : classify e = "approved" ∨ classify e = "pending" := by
  rw [classify]
  by_cases hb : jsEndsWith e.toList sfsuDomain.toList = true
  · exact Or.inl (if_pos hb)
  · exact Or.inr (if_neg hb)

/-- A world whose collaborators all succeed. -/
def demoWorld : World :=
  { now := 5, baseUrl := "https://nercelsfsu.vercel.app",
    insertError := false, sendMailError := false }

/-- A world whose mail transport rejects every send. -/
def demoWorldMailFail : World :=
  { now := 5, baseUrl := "https://nercelsfsu.vercel.app",
    insertError := false, sendMailError := true }

/-- A complete intake request with a non-institutional email. -/
def demoPendingReq : SubmissionInput :=
  { fullName := some "Ada Lovelace", email := some "ada@gmail.com",
    projectTitle := some "Analytical Engines", projectDescription := some "Notes",
    videoLink := none, presentationFile := some { originalname := "slides.pdf" },
    paperFile := none, logoFile := none }

/-- A complete intake request with an institutional email. -/
def demoSfsuReq : SubmissionInput :=
  { fullName := some "Grace Hopper", email := some "grace@sfsu.edu",
    projectTitle := some "Compilers", projectDescription := some "Notes",
    videoLink := none, presentationFile := some { originalname := "deck.pdf" },
    paperFile := none, logoFile := none }

/-- An intake request missing the presentation file part. -/
def demoInvalidReq : SubmissionInput :=
  { fullName := some "Alan Turing", email := some "alan@gmail.com",
    projectTitle := some "Machines", projectDescription := some "Notes",
    videoLink := none, presentationFile := none,
    paperFile := none, logoFile := none }

/-- The empty store, with identifiers starting at one. -/
def emptyStore : Store := { rows := [], nextId := 1 }

/-- A demonstration row that is already approved. -/
def demoRowApproved : StoredSubmission :=
  { id := 1, full_name := "A", email := "a@sfsu.edu", project_title := "T1",
    project_description := "D1", video_link := none, presentation_url := "/uploads/1-a.pdf",
    paper_url := none, logo_url := none, status := "approved", created_at := 1 }

/-- A demonstration row that is still pending. -/
def demoRowPending : StoredSubmission :=
  { id := 2, full_name := "B", email := "b@gmail.com", project_title := "T2",
    project_description := "D2", video_link := none, presentation_url := "/uploads/2-b.pdf",
    paper_url := none, logo_url := none, status := "pending", created_at := 2 }

/-- A newer demonstration row that is approved. -/
def demoRowApproved2 : StoredSubmission :=
  { id := 3, full_name := "C", email := "c@sfsu.edu", project_title := "T3",
    project_description := "D3", video_link := none, presentation_url := "/uploads/3-c.pdf",
    paper_url := none, logo_url := none, status := "approved", created_at := 3 }

/-- A store holding two approved rows and one pending row. -/
def demoStore : Store :=
  { rows := [demoRowApproved, demoRowPending, demoRowApproved2], nextId := 4 }

/-- String append is associative. -/
theorem strAppend_assoc (a b c : String) : a ++ b ++ c = a ++ (b ++ c) := by
  cases a with | _ a => cases b with | _ b => cases c with | _ c =>
  exact congrArg String.mk (List.append_assoc a b c)

/-! Claim theorems. -/

/-- C6: an intake request missing the full name, the email, the project
title, the project description or the presentation file answers 400 with the
missing-fields message and performs no side effect: the store is unchanged,
no file is written and the dispatcher is never invoked. -/
theorem c6_validation_no_side_effects (w : World) (st : Store) (req : SubmissionInput)
    (h : req.fullName = none ∨ req.email = none ∨ req.projectTitle = none ∨
      req.projectDescription = none ∨ req.presentationFile = none) :
    (postSubmissions w st req).response = missingFieldsResponse ∧
    (postSubmissions w st req).store = st ∧
    (postSubmissions w st req).filesWritten = [] ∧
    (postSubmissions w st req).dispatchCalls = [] := by
  have hN : requiredFields req = none := by
    rcases req with ⟨f1, f2, f3, f4, f5, f6, f7, f8⟩
    cases f1 <;> cases f2 <;> cases f3 <;> cases f4 <;> cases f6 <;>
      simp_all [requiredFields]
  simp [postSubmissions, hN]

/-- C6 witness: the theorem applied at a request lacking its presentation
file. -/
theorem c6_validation_no_side_effects_witness :
    (postSubmissions demoWorld emptyStore demoInvalidReq).response = missingFieldsResponse ∧
    (postSubmissions demoWorld emptyStore demoInvalidReq).store = emptyStore ∧
    (postSubmissions demoWorld emptyStore demoInvalidReq).filesWritten = [] ∧
    (postSubmissions demoWorld emptyStore demoInvalidReq).dispatchCalls = [] :=
  c6_validation_no_side_effects demoWorld emptyStore demoInvalidReq (by decide)

/-- C3: at intake, classification yields approved exactly when the email ends
with the exact case-sensitive literal suffix of the institutional domain,
with no trimming or case folding, and yields pending otherwise; in
particular the three sample addresses classify as the claim states. -/
theorem c3_classifier_suffix_rule :
    (∀ e : String,
      (classify e = "approved" ↔ ∃ p : List Char, p ++ sfsuDomain.toList = e.toList) ∧
      (classify e = "pending" ↔ ¬ ∃ p : List Char, p ++ sfsuDomain.toList = e.toList)) ∧
    classify "a@SFSU.EDU" = "pending" ∧
    classify "a@sfsu.edu" = "approved" ∧
    classify "a@sfsu.edu.com" = "pending" := by
  refine ⟨?_, by decide, by decide, by decide⟩
  intro e
  have happ : classify e = "approved" ↔ ∃ p : List Char, p ++ sfsuDomain.toList = e.toList := by
    constructor
    · intro h
      by_cases hb : jsEndsWith e.toList sfsuDomain.toList = true
      · exact (jsEndsWith_iff e sfsuDomain).mp hb
      · rw [classify, if_neg hb] at h
        exact absurd h (by decide)
    · intro h
      rw [classify, if_pos ((jsEndsWith_iff e sfsuDomain).mpr h)]
  refine ⟨happ, ?_, ?_⟩
  · intro h hex
    have := happ.mpr hex
    rw [h] at this
    exact absurd this (by decide)
  · intro h
    rcases classify_cases e with ha | hp
    · exact absurd (happ.mp ha) h
    · exact hp

/-- C3 witness: the theorem applied at a concrete institutional address. -/
theorem c3_classifier_suffix_rule_witness : classify "a@sfsu.edu" = "approved" :=
  c3_classifier_suffix_rule.2.2.1

/-- C4: a valid intake whose email does not end with the institutional
domain persists exactly one new row, with status pending and the identifier
the store assigns, and invokes the dispatcher exactly once with a mail whose
body embeds the approval link carrying that identifier; this holds whether
or not the send itself then succeeds. -/
theorem c4_pending_notifies_once (w : World) (st : Store) (req : SubmissionInput)
    (fn em pt pd : String) (pf : FilePart)
    (hreq : requiredFields req = some (fn, em, pt, pd, pf))
    (hdom : jsEndsWith em.toList sfsuDomain.toList = false)
    (hins : w.insertError = false) :
    ∃ row mail,
      (postSubmissions w st req).store.rows = st.rows ++ [row] ∧
      row.status = "pending" ∧
      row.id = st.nextId ∧
      (postSubmissions w st req).dispatchCalls = [mail] ∧
      ∃ a b, mail.html = a ++ approvalLinkFor w.baseUrl row.id ++ b := by
  have hdom2 : jsEndsWith em.data sfsuDomain.data = false := hdom
  refine ⟨newRecord w st fn em pt pd req.videoLink pf req.paperFile req.logoFile,
    submissionMail fn em pt pd (approvalLinkFor w.baseUrl st.nextId), ?_, ?_, rfl, ?_, ?_⟩
  · cases hsm : w.sendMailError <;>
      simp [postSubmissions, hreq, hins, hdom, hdom2, hsm]
  · show classify em = "pending"
    simp [classify, hdom, hdom2]
  · cases hsm : w.sendMailError <;>
      simp [postSubmissions, hreq, hins, hdom, hdom2, hsm, newRecord]
  · refine ⟨mailHtmlHead fn em pt pd,
      mailHtmlMid ++ approvalLinkFor w.baseUrl st.nextId ++ mailHtmlTail, ?_⟩
    show mailHtml fn em pt pd (approvalLinkFor w.baseUrl st.nextId) = _
    rw [mailHtml]
    rw [strAppend_assoc (mailHtmlHead fn em pt pd ++ approvalLinkFor w.baseUrl st.nextId)
      mailHtmlMid (approvalLinkFor w.baseUrl st.nextId)]
    rw [strAppend_assoc (mailHtmlHead fn em pt pd ++ approvalLinkFor w.baseUrl st.nextId)
      (mailHtmlMid ++ approvalLinkFor w.baseUrl st.nextId) mailHtmlTail]
    rw [strAppend_assoc mailHtmlMid (approvalLinkFor w.baseUrl st.nextId) mailHtmlTail]
    rfl

/-- C4 witness: the theorem applied at a complete gmail submission against
the empty store. -/
theorem c4_pending_notifies_once_witness :
    ∃ row mail,
      (postSubmissions demoWorld emptyStore demoPendingReq).store.rows =
        emptyStore.rows ++ [row] ∧
      row.status = "pending" ∧
      row.id = emptyStore.nextId ∧
      (postSubmissions demoWorld emptyStore demoPendingReq).dispatchCalls = [mail] ∧
      ∃ a b, mail.html = a ++ approvalLinkFor demoWorld.baseUrl row.id ++ b :=
  c4_pending_notifies_once demoWorld emptyStore demoPendingReq
    "Ada Lovelace" "ada@gmail.com" "Analytical Engines" "Notes" { originalname := "slides.pdf" }
    (by decide) (by decide) rfl

/-- C5: a valid intake whose email ends with the institutional domain
persists exactly one new row with status approved, never invokes the
dispatcher, and answers 200 with the auto-approved message, which differs
from the pending-review message; the mail transport switch is left free, so
the response is keyed purely on the classified status. -/
theorem c5_auto_approved_no_dispatch (w : World) (st : Store) (req : SubmissionInput)
    (fn em pt pd : String) (pf : FilePart)
    (hreq : requiredFields req = some (fn, em, pt, pd, pf))
    (hdom : jsEndsWith em.toList sfsuDomain.toList = true)
    (hins : w.insertError = false) :
    ∃ row,
      (postSubmissions w st req).store.rows = st.rows ++ [row] ∧
      row.status = "approved" ∧
      (postSubmissions w st req).dispatchCalls = [] ∧
      (postSubmissions w st req).response =
        { httpStatus := 200, success := true, message := autoApprovedMessage } ∧
      autoApprovedMessage ≠ pendingReviewMessage := by
  have hdom2 : jsEndsWith em.data sfsuDomain.data = true := hdom
  refine ⟨newRecord w st fn em pt pd req.videoLink pf req.paperFile req.logoFile,
    ?_, ?_, ?_, ?_, by decide⟩
  · simp [postSubmissions, hreq, hins, hdom, hdom2]
  · show classify em = "approved"
    simp [classify, hdom, hdom2]
  · simp [postSubmissions, hreq, hins, hdom, hdom2]
  · simp [postSubmissions, hreq, hins, hdom, hdom2]

/-- C5 witness: the theorem applied at an institutional submission, in the
world whose mail transport would fail, showing the outcome ignores it. -/
theorem c5_auto_approved_no_dispatch_witness :
    ∃ row,
      (postSubmissions demoWorldMailFail emptyStore demoSfsuReq).store.rows =
        emptyStore.rows ++ [row] ∧
      row.status = "approved" ∧
      (postSubmissions demoWorldMailFail emptyStore demoSfsuReq).dispatchCalls = [] ∧
      (postSubmissions demoWorldMailFail emptyStore demoSfsuReq).response =
        { httpStatus := 200, success := true, message := autoApprovedMessage } ∧
      autoApprovedMessage ≠ pendingReviewMessage :=
  c5_auto_approved_no_dispatch demoWorldMailFail emptyStore demoSfsuReq
    "Grace Hopper" "grace@sfsu.edu" "Compilers" "Notes" { originalname := "deck.pdf" }
    (by decide) (by decide) rfl

/-- C1 counterexample: with a failing mail transport, the valid gmail intake
persists exactly one pending row, yet the HTTP response is the 500 failure
response, not the success the claim states. -/
theorem c1_counterexample :
    (postSubmissions demoWorldMailFail emptyStore demoPendingReq).response =
      submitFailureResponse ∧
    (postSubmissions demoWorldMailFail emptyStore demoPendingReq).response.httpStatus = 500 ∧
    List.map (fun r => r.status)
      (postSubmissions demoWorldMailFail emptyStore demoPendingReq).store.rows =
      ["pending"] := by
  refine ⟨rfl, rfl, rfl⟩

/-- C1 amended: for every valid intake with a non-institutional email where
the insert succeeds and the dispatcher then fails, the persisted record
remains, with status pending — the dispatch failure never rolls back or
alters the stored submission — but the HTTP response is the 500 failure
response rather than a success, because the sendMail rejection reaches the
catch-all handler. -/
theorem c1_dispatch_failure_persists_row_but_500 (w : World) (st : Store)
    (req : SubmissionInput) (fn em pt pd : String) (pf : FilePart)
    (hreq : requiredFields req = some (fn, em, pt, pd, pf))
    (hdom : jsEndsWith em.toList sfsuDomain.toList = false)
    (hins : w.insertError = false) (hmail : w.sendMailError = true) :
    ∃ row,
      (postSubmissions w st req).store.rows = st.rows ++ [row] ∧
      row.status = "pending" ∧
      (postSubmissions w st req).response = submitFailureResponse := by
  have hdom2 : jsEndsWith em.data sfsuDomain.data = false := hdom
  refine ⟨newRecord w st fn em pt pd req.videoLink pf req.paperFile req.logoFile, ?_, ?_, ?_⟩
  · simp [postSubmissions, hreq, hins, hdom, hdom2, hmail]
  · show classify em = "pending"
    simp [classify, hdom, hdom2]
  · simp [postSubmissions, hreq, hins, hdom, hdom2, hmail]

/-- C1 witness: the amended theorem applied at the failing-transport world
and the complete gmail submission. -/
theorem c1_dispatch_failure_persists_row_but_500_witness :
    ∃ row,
      (postSubmissions demoWorldMailFail emptyStore demoPendingReq).store.rows =
        emptyStore.rows ++ [row] ∧
      row.status = "pending" ∧
      (postSubmissions demoWorldMailFail emptyStore demoPendingReq).response =
        submitFailureResponse :=
  c1_dispatch_failure_persists_row_but_500 demoWorldMailFail emptyStore demoPendingReq
    "Ada Lovelace" "ada@gmail.com" "Analytical Engines" "Notes" { originalname := "slides.pdf" }
    (by decide) (by decide) rfl rfl

/-- A map of the approval update over rows none of which carry the requested
identifier is the identity. -/
theorem map_setApprovedRow_of_no_match (n : Nat) (l : List StoredSubmission)
    (h : ∀ r ∈ l, r.id ≠ n) : l.map (setApprovedRow n) = l := by
  induction l with
  | nil => rfl
  | cons a l ih =>
    rw [List.map_cons, setApprovedRow, if_neg (h a (List.mem_cons_self a l)),
      ih (fun r hr => h r (List.mem_cons_of_mem a hr))]

/-- C2 counterexample: approving identifier 99, which no stored row carries,
returns the 200 success response with the store unchanged — it does not
report failure as the claim states. -/
theorem c2_counterexample :
    approveSubmission false demoStore (some 99) = (ApproveResponse.ok, demoStore) ∧
    ApproveResponse.ok ≠ ApproveResponse.failure ∧
    ApproveResponse.ok ≠ ApproveResponse.badRequest := by
  refine ⟨by decide, by decide, by decide⟩

/-- C2 amended: approving an identifier that refers to no existing
submission, with a non-empty studentId, creates no record, alters no record
and does not crash — the handler returns normally with the store unchanged —
but it reports the 200 success response, not a failure, because an update
whose filter matches zero rows is not a repository error. -/
theorem c2_nonexistent_id_success_noop (st : Store) (n : Nat)
    (h : ∀ r ∈ st.rows, r.id ≠ n) :
    approveSubmission false st (some n) = (ApproveResponse.ok, st) := by
  show (ApproveResponse.ok, { st with rows := st.rows.map (setApprovedRow n) }) =
    (ApproveResponse.ok, st)
  rw [map_setApprovedRow_of_no_match n st.rows h]

/-- C2 witness: the amended theorem applied at the demonstration store and
the unused identifier 99. -/
theorem c2_nonexistent_id_success_noop_witness :
    approveSubmission false demoStore (some 99) = (ApproveResponse.ok, demoStore) :=
  c2_nonexistent_id_success_noop demoStore 99 (by decide)

/-- Applying the approval update twice to one row equals applying it once. -/
theorem setApprovedRow_idem (n : Nat) (r : StoredSubmission) :
    setApprovedRow n (setApprovedRow n r) = setApprovedRow n r := by
  by_cases h : r.id = n
  · cases r
    simp_all [setApprovedRow]
  · have hfix : setApprovedRow n r = r := by rw [setApprovedRow, if_neg h]
    rw [hfix]
    exact hfix

/-- C8: approving an existing identifier answers success and sets every row
of that identifier to approved while leaving every other row untouched;
approving the same identifier again answers success and leaves the store
exactly as it was — the transition is idempotent with the same outcome. -/
theorem c8_approve_idempotent (st : Store) (n : Nat)
    (hex : ∃ r, r ∈ st.rows ∧ r.id = n) :
    ∃ st1,
      approveSubmission false st (some n) = (ApproveResponse.ok, st1) ∧
      st1.rows = st.rows.map (setApprovedRow n) ∧
      (∀ r ∈ st1.rows, r.id = n → r.status = "approved") ∧
      (∀ r ∈ st.rows, r.id ≠ n → r ∈ st1.rows) ∧
      approveSubmission false st1 (some n) = (ApproveResponse.ok, st1) := by
  refine ⟨{ st with rows := st.rows.map (setApprovedRow n) }, rfl, rfl, ?_, ?_, ?_⟩
  · intro r hr hid
    simp only [List.mem_map] at hr
    obtain ⟨r0, hr0, heq⟩ := hr
    subst heq
    by_cases h0 : r0.id = n
    · simp [setApprovedRow, h0]
    · simp [setApprovedRow, h0] at hid
  · intro r hr hneq
    have hfix : setApprovedRow n r = r := by rw [setApprovedRow, if_neg hneq]
    have hm := List.mem_map_of_mem (setApprovedRow n) hr
    rwa [hfix] at hm
  · have hmm : (st.rows.map (setApprovedRow n)).map (setApprovedRow n) =
        st.rows.map (setApprovedRow n) := by
      rw [List.map_map]
      exact List.map_congr_left (fun a _ => setApprovedRow_idem n a)
    show (ApproveResponse.ok,
        ({ rows := (st.rows.map (setApprovedRow n)).map (setApprovedRow n),
           nextId := st.nextId } : Store)) =
      (ApproveResponse.ok,
        ({ rows := st.rows.map (setApprovedRow n), nextId := st.nextId } : Store))
    rw [hmm]

/-- C8 witness: the theorem applied at the demonstration store and the
identifier of its pending row. -/
theorem c8_approve_idempotent_witness :
    ∃ st1,
      approveSubmission false demoStore (some 2) = (ApproveResponse.ok, st1) ∧
      st1.rows = demoStore.rows.map (setApprovedRow 2) ∧
      (∀ r ∈ st1.rows, r.id = 2 → r.status = "approved") ∧
      (∀ r ∈ demoStore.rows, r.id ≠ 2 → r ∈ st1.rows) ∧
      approveSubmission false st1 (some 2) = (ApproveResponse.ok, st1) :=
  c8_approve_idempotent demoStore 2 ⟨demoRowPending, by decide, rfl⟩

/-- The query result is sorted by creation timestamp descending. -/
theorem listByStatus_sorted (st : Store) (s : String) :
    (listByStatus st s).Pairwise (fun a b => b.created_at ≤ a.created_at) := by
  have h := @List.sorted_mergeSort StoredSubmission
    (fun a b => Nat.ble b.created_at a.created_at)
    (fun a b c hab hbc => by
      simp only [Nat.ble_eq] at hab hbc ⊢
      omega)
    (fun a b => by
      simp only [Bool.or_eq_true, Nat.ble_eq]
      omega)
    (st.rows.filter (fun r => r.status == s))
  exact h.imp (fun hb => by simpa [Nat.ble_eq] using hb)

/-- The query result holds exactly the stored rows of the requested status. -/
theorem listByStatus_mem (st : Store) (s : String) (r : StoredSubmission) :
    r ∈ listByStatus st s ↔ r ∈ st.rows ∧ r.status = s := by
  rw [listByStatus, List.mem_mergeSort, List.mem_filter]
  simp

/-- C9: GET /api/submissions answers 400 exactly when the status parameter
is absent or empty; for any non-empty status value it answers 200 with
exactly the stored rows of that status, ordered by creation timestamp
descending (newest first). -/
theorem c9_list_by_status_contract (st : Store) :
    getSubmissions false st none = QueryResponse.badRequest ∧
    getSubmissions false st (some "") = QueryResponse.badRequest ∧
    (∀ s : String, s ≠ "" →
      getSubmissions false st (some s) = QueryResponse.ok (listByStatus st s) ∧
      (∀ r, r ∈ listByStatus st s ↔ r ∈ st.rows ∧ r.status = s) ∧
      (listByStatus st s).Pairwise (fun a b => b.created_at ≤ a.created_at)) := by
  refine ⟨rfl, rfl, ?_⟩
  intro s hs
  refine ⟨?_, fun r => listByStatus_mem st s r, listByStatus_sorted st s⟩
  simp [getSubmissions, hs]

/-- C9 witness: the theorem applied at the demonstration store with the
approved status value. -/
theorem c9_list_by_status_contract_witness :
    getSubmissions false demoStore (some "approved") =
      QueryResponse.ok (listByStatus demoStore "approved") :=
  ((c9_list_by_status_contract demoStore).2.2 "approved" (by decide)).1

/-- C10: any non-empty status value, also one outside pending and approved,
is not rejected: the handler queries the store with the value exactly as
given and answers 200 with the possibly empty list of rows whose status
equals it. -/
theorem c10_nonempty_status_never_rejected (st : Store) (s : String) (h : s ≠ "") :
    getSubmissions false st (some s) = QueryResponse.ok (listByStatus st s) ∧
    (∀ r, r ∈ listByStatus st s ↔ r ∈ st.rows ∧ r.status = s) := by
  refine ⟨?_, fun r => listByStatus_mem st s r⟩
  simp [getSubmissions, h]

/-- C10 witness: the theorem applied at the demonstration store with a
status value outside pending and approved. -/
theorem c10_nonempty_status_never_rejected_witness :
    getSubmissions false demoStore (some "banana") =
      QueryResponse.ok (listByStatus demoStore "banana") ∧
    (∀ r, r ∈ listByStatus demoStore "banana" ↔
      r ∈ demoStore.rows ∧ r.status = "banana") :=
  c10_nonempty_status_never_rejected demoStore "banana" (by decide)

/-- Any row present after one step was already present, or is an existing
row rewritten to approved by the approval update, or is a fresh row whose
status is the classification of its email. -/
theorem stepStore_writes (st : Store) (op : Op) (r : StoredSubmission)
    (hr : r ∈ (stepStore st op).rows) :
    r ∈ st.rows ∨
    (∃ r0, r0 ∈ st.rows ∧ r0.id = r.id ∧ r = { r0 with status := "approved" }) ∨
    r.status = classify r.email := by
  cases op with
  | approve repoError sid =>
    cases sid with
    | none => exact Or.inl hr
    | some n =>
      cases repoError with
      | true => exact Or.inl hr
      | false =>
        have hr2 : r ∈ st.rows.map (setApprovedRow n) := hr
        simp only [List.mem_map] at hr2
        obtain ⟨r0, hr0, heq⟩ := hr2
        by_cases h0 : r0.id = n
        · subst heq
          refine Or.inr (Or.inl ⟨r0, hr0, ?_, ?_⟩)
          · rw [setApprovedRow, if_pos h0]
          · rw [setApprovedRow, if_pos h0]
        · have hfix : setApprovedRow n r0 = r0 := by rw [setApprovedRow, if_neg h0]
          subst heq
          rw [hfix]
          exact Or.inl hr0
  | submit w req =>
    have hr2 : r ∈ (postSubmissions w st req).store.rows := hr
    cases hq : requiredFields req with
    | none =>
      have hst : (postSubmissions w st req).store = st := by simp [postSubmissions, hq]
      rw [hst] at hr2
      exact Or.inl hr2
    | some q =>
      obtain ⟨fn, em, pt, pd, pf⟩ := q
      cases hins : w.insertError with
      | true =>
        have hst : (postSubmissions w st req).store = st := by
          simp [postSubmissions, hq, hins]
        rw [hst] at hr2
        exact Or.inl hr2
      | false =>
        have hrows : (postSubmissions w st req).store.rows = st.rows ++
            [newRecord w st fn em pt pd req.videoLink pf req.paperFile req.logoFile] := by
          cases hd : jsEndsWith em.data sfsuDomain.data <;>
            cases hsm : w.sendMailError <;>
            simp [postSubmissions, hq, hins, hd, hsm]
        rw [hrows] at hr2
        rcases List.mem_append.mp hr2 with h1 | h1
        · exact Or.inl h1
        · have heq : r =
              newRecord w st fn em pt pd req.videoLink pf req.paperFile req.logoFile :=
            List.mem_singleton.mp h1
          subst heq
          exact Or.inr (Or.inr rfl)

/-- An approved row survives one step untouched. -/
theorem stepStore_approved_persists (st : Store) (op : Op) (r : StoredSubmission)
    (hr : r ∈ st.rows) (ha : r.status = "approved") : r ∈ (stepStore st op).rows := by
  cases op with
  | approve repoError sid =>
    cases sid with
    | none => exact hr
    | some n =>
      cases repoError with
      | true => exact hr
      | false =>
        show r ∈ st.rows.map (setApprovedRow n)
        have hfix : setApprovedRow n r = r := by
          by_cases h0 : r.id = n
          · cases r
            simp_all [setApprovedRow]
          · rw [setApprovedRow, if_neg h0]
        have hm := List.mem_map_of_mem (setApprovedRow n) hr
        rwa [hfix] at hm
  | submit w req =>
    show r ∈ (postSubmissions w st req).store.rows
    cases hq : requiredFields req with
    | none =>
      have hst : (postSubmissions w st req).store = st := by simp [postSubmissions, hq]
      rw [hst]
      exact hr
    | some q =>
      obtain ⟨fn, em, pt, pd, pf⟩ := q
      cases hins : w.insertError with
      | true =>
        have hst : (postSubmissions w st req).store = st := by
          simp [postSubmissions, hq, hins]
        rw [hst]
        exact hr
      | false =>
        have hrows : (postSubmissions w st req).store.rows = st.rows ++
            [newRecord w st fn em pt pd req.videoLink pf req.paperFile req.logoFile] := by
          cases hd : jsEndsWith em.data sfsuDomain.data <;>
            cases hsm : w.sendMailError <;>
            simp [postSubmissions, hq, hins, hd, hsm]
        rw [hrows]
        exact List.mem_append_left _ hr

/-- An approved row survives any sequence of operations untouched. -/
theorem runOps_approved_persists (ops : List Op) (st : Store) (r : StoredSubmission)
    (hr : r ∈ st.rows) (ha : r.status = "approved") : r ∈ (runOps st ops).rows := by
  induction ops generalizing st with
  | nil => exact hr
  | cons op ops ih =>
    exact ih (stepStore st op) (stepStore_approved_persists st op r hr ha)

/-- C7: statuses only move forward. After any single operation every row is
either untouched, or an existing row rewritten to approved by the approval
transition, or a fresh row carrying exactly the classification of its own
email; and across every sequence of operations an approved row persists
unchanged, so no operation ever moves approved back to pending and no
status is ever recomputed after creation. -/
theorem c7_status_forward_only (st : Store) (op : Op) (ops : List Op) :
    (∀ r ∈ (stepStore st op).rows,
      r ∈ st.rows ∨
      (∃ r0, r0 ∈ st.rows ∧ r0.id = r.id ∧ r = { r0 with status := "approved" }) ∨
      r.status = classify r.email) ∧
    (∀ r ∈ st.rows, r.status = "approved" → r ∈ (runOps st ops).rows) :=
  ⟨fun r hr => stepStore_writes st op r hr,
   fun r hr ha => runOps_approved_persists ops st r hr ha⟩

/-- C7 witness: the approved demonstration row survives an approval of the
pending row followed by a fresh intake. -/
theorem c7_status_forward_only_witness :
    demoRowApproved ∈
      (runOps demoStore
        [Op.approve false (some 2), Op.submit demoWorld demoPendingReq]).rows :=
  (c7_status_forward_only demoStore (Op.approve false (some 2))
      [Op.approve false (some 2), Op.submit demoWorld demoPendingReq]).2
    demoRowApproved (by decide) rfl

end Server
